import Mathlib

/-!
Verification development for the memorybench Run Engine.

The definitions below are a shallow embedding of the repository's
TypeScript sources:

* `src/src/types/concurrency.ts` — `ConcurrencyConfig`, `PhaseId`,
  `resolveConcurrency`.
* `src/unnamed/part_000` — `getEpisodeCount`, `IndexingProgressTracker`,
  `runIndexingPhase` (the indexing phase runner).
* `src/unnamed/part_001` — `Mem0Provider.awaitIndexing` (polling loop).
* `src/src/providers/supermemory/index.ts` — `SupermemoryProvider.awaitIndexing`.

TypeScript `number` values used as concurrency limits, counts and durations
are modelled as `Nat`; optional values / possibly-`undefined` fields are
modelled as `Option`; a thrown exception is modelled as `Except.error`.
Observable effects (checkpoint persistence, terminal display writes,
provider calls, log lines) are modelled as an explicit event trace.
-/

/-! ## Concurrency configuration (src/src/types/concurrency.ts) -/

/-- `ConcurrencyConfig` from `src/src/types/concurrency.ts`.  Every field is
modelled as optional: the per-phase fields are optional in the interface, and
`resolveConcurrency` itself guards `cliConfig?.default !== undefined`, i.e. the
code treats `default` as possibly absent at runtime (CLI flag objects such as
`{search: 4}` carry no `default`). -/
structure ConcurrencyConfig where
  default : Option Nat := none
  ingest : Option Nat := none
  indexing : Option Nat := none
  search : Option Nat := none
  answer : Option Nat := none
  evaluate : Option Nat := none
deriving DecidableEq, Repr

/-- `PhaseId` union type from `src/src/types/concurrency.ts`. -/
inductive PhaseId where
  | ingest
  | indexing
  | search
  | answer
  | evaluate
deriving DecidableEq, Repr

/-- The per-phase index access `config[phase]` for a `PhaseId` key. -/
def ConcurrencyConfig.phaseEntry (c : ConcurrencyConfig) : PhaseId → Option Nat
  | .ingest => c.ingest
  | .indexing => c.indexing
  | .search => c.search
  | .answer => c.answer
  | .evaluate => c.evaluate

/-- `resolveConcurrency` from `src/src/types/concurrency.ts`: the five-step
priority cascade (CLI per-phase, CLI default, provider per-phase, provider
default, constant 1), written as nested matches mirroring the source's
early-return `if` chain. -/
def resolveConcurrency (phase : PhaseId)
    (cliConfig providerDefault : Option ConcurrencyConfig) : Nat :=
  -- Priority 1: CLI per-phase flag
  match cliConfig.bind (fun c => c.phaseEntry phase) with
  | some v => v
  | none =>
    -- Priority 2: CLI default flag
    match cliConfig.bind (fun c => c.default) with
    | some v => v
    | none =>
      -- Priority 3: Provider per-phase default
      match providerDefault.bind (fun c => c.phaseEntry phase) with
      | some v => v
      | none =>
        -- Priority 4: Provider default
        match providerDefault.bind (fun c => c.default) with
        | some v => v
        | none => 1

/-- The specification's description of the cascade, written from the spec's
words ("first defined value in the fixed cascade ... then the constant 1"),
for comparison with `resolveConcurrency`. -/
def firstDefinedInCascade (phase : PhaseId)
    (cliConfig providerDefault : Option ConcurrencyConfig) : Nat :=
  (cliConfig.bind (fun c => c.phaseEntry phase)).getD
    ((cliConfig.bind (fun c => c.default)).getD
      ((providerDefault.bind (fun c => c.phaseEntry phase)).getD
        ((providerDefault.bind (fun c => c.default)).getD 1)))

/-- Every value present in a `ConcurrencyConfig` is at least 1. -/
def ConcurrencyConfig.allAtLeastOne (c : ConcurrencyConfig) : Prop :=
  (∀ v, c.default = some v → 1 ≤ v) ∧
  (∀ ph v, c.phaseEntry ph = some v → 1 ≤ v)

/-- Lift `ConcurrencyConfig.allAtLeastOne` to an optional configuration. -/
def optionalAllAtLeastOne : Option ConcurrencyConfig → Prop
  | none => True
  | some c => c.allAtLeastOne

/-! ## Checkpoint data model

The engine's checkpoint types (`src/../types/checkpoint`) are not present in
the sources; the fields below are the ones read and written by
`src/unnamed/part_000` together with the spec's §3 data model. -/

/-- Phase status union `pending | in_progress | completed | failed` (spec §3;
the same union appears in `src/benchmarks/LoCoMo/scripts/utils/checkpoint.ts`). -/
inductive PhaseStatus where
  | pending
  | in_progress
  | completed
  | failed
deriving DecidableEq, Repr

/-- `IngestResult`: both id lists are optional — `getEpisodeCount` guards
`documentIds?.length` and `taskIds?.length`, and `Mem0Provider.awaitIndexing`
guards `result.documentIds || []`. -/
structure IngestResult where
  documentIds : Option (List String) := none
  taskIds : Option (List String) := none
deriving DecidableEq, Repr

/-- `IndexingProgress` passed to the indexing progress callback:
cumulative completed/failed episode id lists plus the reported total. -/
structure IndexingProgress where
  completedIds : List String
  failedIds : List String
  total : Nat
deriving DecidableEq, Repr

/-- Per-phase checkpoint state (spec §3 `PhaseState`; fields as read/written by
`runIndexingPhase`). -/
structure PhaseState where
  status : PhaseStatus := .pending
  ingestResult : Option IngestResult := none
  completedIds : Option (List String) := none
  failedIds : Option (List String) := none
  error : Option String := none
  startedAt : Option String := none
  completedAt : Option String := none
  durationMs : Option Nat := none
deriving DecidableEq, Repr

/-- A partial `PhaseState`, i.e. the object literal passed to
`checkpointManager.updatePhase`: `none` = field absent from the literal. -/
structure PhaseUpdate where
  status : Option PhaseStatus := none
  completedIds : Option (List String) := none
  failedIds : Option (List String) := none
  error : Option String := none
  startedAt : Option String := none
  completedAt : Option String := none
  durationMs : Option Nat := none
deriving DecidableEq, Repr

/-- Modelled from the spec: the Checkpoint Store's merge of a partial state
into an existing `PhaseState` (§4.1: "merges `partialState` into the existing
`PhaseState` for that `(questionId, phase)`"); the engine's `CheckpointManager`
source is not under src/. Fields absent from the partial keep their old
values. -/
def mergePhase (old : PhaseState) (p : PhaseUpdate) : PhaseState :=
  { status := p.status.getD old.status
    ingestResult := old.ingestResult
    completedIds :=
      match p.completedIds with
      | some ids => some ids
      | none => old.completedIds
    failedIds :=
      match p.failedIds with
      | some ids => some ids
      | none => old.failedIds
    error :=
      match p.error with
      | some e => some e
      | none => old.error
    startedAt :=
      match p.startedAt with
      | some t => some t
      | none => old.startedAt
    completedAt :=
      match p.completedAt with
      | some t => some t
      | none => old.completedAt
    durationMs :=
      match p.durationMs with
      | some d => some d
      | none => old.durationMs }

/-- The record of per-phase states of one question (spec §3). -/
structure QuestionPhases where
  ingest : PhaseState := {}
  indexing : PhaseState := {}
  search : PhaseState := {}
  answer : PhaseState := {}
  evaluate : PhaseState := {}
deriving DecidableEq, Repr

/-- Read the `PhaseState` of a given phase. -/
def QuestionPhases.get (ps : QuestionPhases) : PhaseId → PhaseState
  | .ingest => ps.ingest
  | .indexing => ps.indexing
  | .search => ps.search
  | .answer => ps.answer
  | .evaluate => ps.evaluate

/-- Replace the `PhaseState` of a given phase. -/
def QuestionPhases.set (ps : QuestionPhases) : PhaseId → PhaseState → QuestionPhases
  | .ingest, s => { ps with ingest := s }
  | .indexing, s => { ps with indexing := s }
  | .search, s => { ps with search := s }
  | .answer, s => { ps with answer := s }
  | .evaluate, s => { ps with evaluate := s }

/-- `QuestionCheckpoint` (spec §3). -/
structure QuestionCheckpoint where
  questionId : String
  containerTag : String := ""
  phases : QuestionPhases := {}
deriving DecidableEq, Repr

/-- `RunCheckpoint` (spec §3): `questions` models the record keyed by
`questionId` as a list of its values (`Object.values(checkpoint.questions)`). -/
structure RunCheckpoint where
  runId : String := ""
  questions : List QuestionCheckpoint := []
  concurrency : Option ConcurrencyConfig := none
deriving DecidableEq, Repr

/-- The effect of `updatePhase` on a single question record: merge when the
id matches, leave the record alone otherwise. -/
def applyPhaseUpdate (questionId : String) (phase : PhaseId) (p : PhaseUpdate)
    (q : QuestionCheckpoint) : QuestionCheckpoint :=
  if q.questionId = questionId then
    { q with phases := q.phases.set phase (mergePhase (q.phases.get phase) p) }
  else q

/-- Modelled from the spec: `CheckpointManager.updatePhase` (§4.1) — merge the
partial state into the `(questionId, phase)` leaf; the questions record is
keyed by id, so the entry with the matching id is replaced. The engine's
`CheckpointManager` source is not under src/. -/
def updatePhase (cp : RunCheckpoint) (questionId : String) (phase : PhaseId)
    (p : PhaseUpdate) : RunCheckpoint :=
  { cp with questions := cp.questions.map (applyPhaseUpdate questionId phase p) }

/-- Find a question record by id (first match of the keyed record). -/
def lookupQuestion (cp : RunCheckpoint) (questionId : String) :
    Option QuestionCheckpoint :=
  cp.questions.find? (fun q => q.questionId = questionId)

/-- The indexing `PhaseState` of a question, by id. -/
def lookupIndexing (cp : RunCheckpoint) (questionId : String) : Option PhaseState :=
  (lookupQuestion cp questionId).map (fun q => q.phases.indexing)

/-- `getEpisodeCount` from `src/unnamed/part_000`:
`(ingestResult.documentIds?.length || 0) + (ingestResult.taskIds?.length || 0)`,
0 when the ingest result is absent. -/
def getEpisodeCount (question : QuestionCheckpoint) : Nat :=
  match question.phases.ingest.ingestResult with
  | none => 0
  | some ingestResult =>
    (ingestResult.documentIds.getD []).length + (ingestResult.taskIds.getD []).length

/-! ## IndexingProgressTracker (src/unnamed/part_000) -/

/-- Per-question sub-counts held by the tracker (also used as the aggregated
triple returned by `getAggregated`). -/
structure ItemCounts where
  completed : Nat
  failed : Nat
  total : Nat
deriving DecidableEq, Repr

/-- `Map.get` on the tracker's `progressByQuestion` map, modelled as an
insertion-ordered association list. -/
def assocGet (m : List (String × ItemCounts)) (k : String) : Option ItemCounts :=
  (m.find? (fun e => e.1 = k)).map (fun e => e.2)

/-- `Map.set`: replace the value in place when the key is present, otherwise
append a new entry (JS `Map` keeps insertion order). -/
def assocSet (m : List (String × ItemCounts)) (k : String) (v : ItemCounts) :
    List (String × ItemCounts) :=
  if m.any (fun e => e.1 = k) then
    m.map (fun e => if e.1 = k then (k, v) else e)
  else m ++ [(k, v)]

/-- `IndexingProgressTracker` state from `src/unnamed/part_000`. -/
structure IndexingProgressTracker where
  progressByQuestion : List (String × ItemCounts) := []
  totalEpisodes : Nat := 0
  lastDisplayed : String := ""
deriving DecidableEq, Repr

/-- One constructor-loop step: seed the question with `{0, 0, episodeCount}`
and accumulate `totalEpisodes`. -/
def mkTrackerStep (t : IndexingProgressTracker) (q : QuestionCheckpoint) :
    IndexingProgressTracker :=
  let count := getEpisodeCount q
  { t with
    totalEpisodes := t.totalEpisodes + count
    progressByQuestion := assocSet t.progressByQuestion q.questionId ⟨0, 0, count⟩ }

/-- The tracker constructor. -/
def mkTracker (questions : List QuestionCheckpoint) : IndexingProgressTracker :=
  questions.foldl mkTrackerStep {}

/-- `getAggregated`: sum the per-question completed/failed counts; the total is
the `totalEpisodes` field fixed at construction. A pure read. -/
def IndexingProgressTracker.getAggregated (t : IndexingProgressTracker) : ItemCounts :=
  { completed := (t.progressByQuestion.map (fun e => e.2.completed)).sum
    failed := (t.progressByQuestion.map (fun e => e.2.failed)).sum
    total := t.totalEpisodes }

/-- An observable effect of the indexing phase runner. `display` carries the
`"completed/total"` string whose change triggers the terminal write (the
rendered bar/percent line is derived from it); `persist` is one
`checkpointManager.updatePhase` call (a durable checkpoint write). -/
inductive Event where
  | persist (questionId : String) (phase : PhaseId) (p : PhaseUpdate)
  | display (s : String)
  | awaitIndexingCall (questionId : String)
  | resolvedConcurrency (n : Nat)
  | log (s : String)
deriving DecidableEq, Repr

/-- Is the event a terminal progress-display write? -/
def Event.isDisplay : Event → Bool
  | .display _ => true
  | _ => false

/-- Is the event a checkpoint persist (`updatePhase` call)? -/
def Event.isPersist : Event → Bool
  | .persist _ _ _ => true
  | _ => false

/-- Is the event a concurrency resolution? -/
def Event.isResolvedConcurrency : Event → Bool
  | .resolvedConcurrency _ => true
  | _ => false

/-- `display()`: recompute the aggregate; when the `"completed/total"` string
changed since the last render, store it and write the progress line. -/
def IndexingProgressTracker.displayStep (t : IndexingProgressTracker) :
    IndexingProgressTracker × List Event :=
  let agg := t.getAggregated
  let displayStr := toString agg.completed ++ "/" ++ toString agg.total
  if displayStr = t.lastDisplayed then (t, [])
  else ({ t with lastDisplayed := displayStr }, [.display displayStr])

/-- The pure part of `update`: when the question is tracked, replace its
counts with the lengths from the (absolute) progress snapshot. -/
def IndexingProgressTracker.updateCounts (t : IndexingProgressTracker)
    (questionId : String) (progress : IndexingProgress) : IndexingProgressTracker :=
  match assocGet t.progressByQuestion questionId with
  | some _ =>
    let counts : ItemCounts :=
      { completed := progress.completedIds.length
        failed := progress.failedIds.length
        total := progress.total }
    { t with progressByQuestion := assocSet t.progressByQuestion questionId counts }
  | none => t

/-- `update(questionId, progress)`: replace the counts, then `display()`. -/
def IndexingProgressTracker.update (t : IndexingProgressTracker)
    (questionId : String) (progress : IndexingProgress) :
    IndexingProgressTracker × List Event :=
  (t.updateCounts questionId progress).displayStep

/-- `markQuestionDone`: clamp the question's completed count to its total
(failed count kept). No display call. -/
def IndexingProgressTracker.markQuestionDone (t : IndexingProgressTracker)
    (questionId : String) : IndexingProgressTracker :=
  match assocGet t.progressByQuestion questionId with
  | some current =>
    let counts : ItemCounts :=
      { completed := current.total, failed := current.failed, total := current.total }
    { t with progressByQuestion := assocSet t.progressByQuestion questionId counts }
  | none => t

/-- A call made against the tracker after construction. -/
inductive TrackerOp where
  | update (questionId : String) (progress : IndexingProgress)
  | markDone (questionId : String)

/-- Apply a sequence of tracker calls. -/
def applyTrackerOps (t : IndexingProgressTracker) : List TrackerOp → IndexingProgressTracker
  | [] => t
  | .update qid p :: rest => applyTrackerOps (t.update qid p).1 rest
  | .markDone qid :: rest => applyTrackerOps (t.markQuestionDone qid) rest

/-! ## The indexing phase runner (src/unnamed/part_000) -/

/-- How `provider.awaitIndexing` behaves for one question: it invokes the
progress callback with each snapshot in `calls`, then either resolves or
throws with a message. -/
inductive AwaitBehaviour where
  | resolves (calls : List IndexingProgress)
  | throws (calls : List IndexingProgress) (message : String)

/-- The provider as seen by the indexing runner: its declared concurrency
defaults and the behaviour of `awaitIndexing` per question id. -/
structure ProviderModel where
  concurrency : Option ConcurrencyConfig := none
  awaitIndexing : String → AwaitBehaviour

/-- Ambient clock values: `new Date().toISOString()` and the
`Date.now() - startTime` difference observed by an item. -/
structure Env where
  nowIso : String := ""
  elapsedMs : Nat := 0

/-- The per-item timing result returned by the unit of work. -/
structure ItemResult where
  questionId : String
  durationMs : Nat
deriving DecidableEq, Repr

/-- Result of running the unit of work for one question. -/
structure ItemOutcome where
  checkpoint : RunCheckpoint
  tracker : IndexingProgressTracker
  events : List Event
  result : Except String ItemResult

/-- The partial state persisted on the zero-episode shortcut. -/
def zeroEpisodeDone (env : Env) : PhaseUpdate :=
  { status := some .completed, completedIds := some [], failedIds := some []
    completedAt := some env.nowIso, durationMs := some 0 }

/-- The partial state persisted by each progress-callback invocation. -/
def progressUpdate (progress : IndexingProgress) : PhaseUpdate :=
  { status := some .in_progress
    completedIds := some progress.completedIds
    failedIds := some progress.failedIds }

/-- The partial state persisted when the wait call is about to start. -/
def startIndexingUpdate (env : Env) : PhaseUpdate :=
  { status := some .in_progress, completedIds := some [], failedIds := some []
    startedAt := some env.nowIso }

/-- The partial state persisted after the wait call resolved. -/
def completedIndexingUpdate (env : Env) (lastProgress : IndexingProgress) : PhaseUpdate :=
  { status := some .completed
    completedIds := some lastProgress.completedIds
    failedIds := some lastProgress.failedIds
    completedAt := some env.nowIso, durationMs := some env.elapsedMs }

/-- The partial state persisted when the wait call threw. -/
def failedIndexingUpdate (message : String) : PhaseUpdate :=
  { status := some .failed, error := some message }

/-- The body of the progress callback passed to `provider.awaitIndexing`
(lines 155–164 of `src/unnamed/part_000`): `tracker.update` (which renders the
aggregate display) first, then the checkpoint persist of the cumulative ids. -/
def indexingCallbackStep (cp : RunCheckpoint) (tr : IndexingProgressTracker)
    (questionId : String) (progress : IndexingProgress) :
    RunCheckpoint × IndexingProgressTracker × List Event :=
  let u := tr.update questionId progress
  (updatePhase cp questionId .indexing (progressUpdate progress), u.1,
    u.2 ++ [.persist questionId .indexing (progressUpdate progress)])

/-- Run the whole sequence of progress-callback invocations for one item. -/
def runCallbacks (cp : RunCheckpoint) (tr : IndexingProgressTracker)
    (questionId : String) : List IndexingProgress →
    RunCheckpoint × IndexingProgressTracker × List Event
  | [] => (cp, tr, [])
  | progress :: rest =>
    let s1 := indexingCallbackStep cp tr questionId progress
    let s2 := runCallbacks s1.1 s1.2.1 questionId rest
    (s2.1, s2.2.1, s1.2.2 ++ s2.2.2)

/-- The fatal error message built when `provider.awaitIndexing` throws. -/
def indexingFatalMessage (questionId error : String) : String :=
  "Indexing failed at " ++ questionId ++ ": " ++ error ++
    ". Fix the issue and resume with the same run ID."

/-- The unit of work the indexing runner hands to the executor for one
question (`src/unnamed/part_000`, lines 118–187): zero-episode shortcut,
otherwise mark `in_progress`, await indexing with the progress callback, and
mark `completed` with the last snapshot — or on a thrown error mark `failed`
and rethrow the fatal message. -/
def runIndexingItem (provider : ProviderModel) (cp : RunCheckpoint)
    (tr : IndexingProgressTracker) (question : QuestionCheckpoint) (env : Env) :
    ItemOutcome :=
  let ingestResult := question.phases.ingest.ingestResult
  let episodeCount := getEpisodeCount question
  if ingestResult.isNone || episodeCount == 0 then
    { checkpoint := updatePhase cp question.questionId .indexing (zeroEpisodeDone env)
      tracker := tr.markQuestionDone question.questionId
      events := [.persist question.questionId .indexing (zeroEpisodeDone env)]
      result := .ok ⟨question.questionId, 0⟩ }
  else
    let cp1 := updatePhase cp question.questionId .indexing (startIndexingUpdate env)
    let evs0 : List Event :=
      [.persist question.questionId .indexing (startIndexingUpdate env),
       .awaitIndexingCall question.questionId]
    match provider.awaitIndexing question.questionId with
    | .resolves calls =>
      let s := runCallbacks cp1 tr question.questionId calls
      let lastProgress := calls.getLast?.getD ⟨[], [], episodeCount⟩
      let doneUpdate := completedIndexingUpdate env lastProgress
      { checkpoint := updatePhase s.1 question.questionId .indexing doneUpdate
        tracker := s.2.1
        events := evs0 ++ s.2.2 ++ [.persist question.questionId .indexing doneUpdate]
        result := .ok ⟨question.questionId, env.elapsedMs⟩ }
    | .throws calls message =>
      let s := runCallbacks cp1 tr question.questionId calls
      { checkpoint := updatePhase s.1 question.questionId .indexing
          (failedIndexingUpdate message)
        tracker := s.2.1
        events := evs0 ++ s.2.2 ++
          [.persist question.questionId .indexing (failedIndexingUpdate message),
           .log ("Failed to index " ++ question.questionId ++ ": " ++ message)]
        result := .error (indexingFatalMessage question.questionId message) }

/-- Modelled from the spec: `ConcurrentExecutor.execute` (§4.3); its source is
not under src/. Items are dispatched in order; a fatal (thrown) failure stops
scheduling further items and propagates after the in-flight work finished —
with the deterministic sequential schedule this is: run items in order and
stop at the first error. -/
def runItems (provider : ProviderModel) (env : Env) :
    List QuestionCheckpoint → RunCheckpoint → IndexingProgressTracker →
    List Event → Except String Unit × RunCheckpoint × IndexingProgressTracker × List Event
  | [], cp, tr, evs => (.ok (), cp, tr, evs)
  | q :: rest, cp, tr, evs =>
    let o := runIndexingItem provider cp tr q env
    match o.result with
    | .ok _ => runItems provider env rest o.checkpoint o.tracker (evs ++ o.events)
    | .error e => (.error e, o.checkpoint, o.tracker, evs ++ o.events)

/-- The eligibility filter of `runIndexingPhase`: optionally restrict to the
caller-supplied id subset, then keep questions with ingest `completed` and
indexing not `completed`. -/
def eligibleForIndexing (cp : RunCheckpoint) (questionIds : Option (List String)) :
    List QuestionCheckpoint :=
  let targetQuestions : List QuestionCheckpoint :=
    match questionIds with
    | some ids => cp.questions.filter (fun q => ids.contains q.questionId)
    | none => cp.questions
  targetQuestions.filter (fun q =>
    q.phases.ingest.status == .completed && q.phases.indexing.status != .completed)

/-- Result of running the indexing phase. -/
structure PhaseOutcome where
  result : Except String Unit
  checkpoint : RunCheckpoint
  events : List Event

/-- `runIndexingPhase` from `src/unnamed/part_000`: select eligible questions,
return at once when there are none, otherwise resolve concurrency, build the
tracker, render the initial display, run every item (executor modelled from
the spec, see `runItems`), and finish the display on success. -/
def runIndexingPhase (provider : ProviderModel) (checkpoint : RunCheckpoint)
    (questionIds : Option (List String)) (env : Env) : PhaseOutcome :=
  let toIndex := eligibleForIndexing checkpoint questionIds
  if toIndex.isEmpty then
    { result := .ok (), checkpoint := checkpoint
      events := [.log "No questions pending indexing"] }
  else
    let concurrency := resolveConcurrency .indexing checkpoint.concurrency provider.concurrency
    let d := (mkTracker toIndex).displayStep
    let evs0 := [.resolvedConcurrency concurrency,
      .log ("Awaiting indexing for " ++ toString toIndex.length ++ " questions")] ++ d.2
    let out := runItems provider env toIndex checkpoint d.1 evs0
    match out.1 with
    | .ok _ =>
      { result := .ok (), checkpoint := out.2.1
        events := out.2.2.2 ++
          [.display (toString out.2.2.1.getAggregated.completed ++ "/" ++
            toString out.2.2.1.getAggregated.total),
           .log "Indexing phase complete"] }
    | .error e =>
      { result := .error e, checkpoint := out.2.1, events := out.2.2.2 }

/-- `true` iff every display event in the trace is preceded by some persist
event (the claim's "persisted before the display is updated"); `seenPersist`
records whether a persist occurred among the events already scanned. -/
def persistBeforeDisplay (seenPersist : Bool) : List Event → Bool
  | [] => true
  | e :: rest =>
    if e.isDisplay && !seenPersist then false
    else persistBeforeDisplay (seenPersist || e.isPersist) rest

/-! ## Provider awaitIndexing polling loops
(src/unnamed/part_001 and src/src/providers/supermemory/index.ts)

Each loop iteration ("round") polls the provider backend once for every
pending id.  The backend is modelled as, per round, a function from id to the
poll outcome; `none` models a rejected promise (skipped by the
`res.status === "fulfilled"` guard, the id stays pending).  The possibly
endless `while (pending.size > 0)` loop is observed along a finite list of
rounds: the emitted callback trace is the prefix produced by those rounds. -/

/-- `new Set(ids)` as an insertion-ordered list of distinct elements. -/
def jsSet (ids : List String) : List String :=
  ids.foldl (fun acc id => if id ∈ acc then acc else acc ++ [id]) []

/-- The mutable loop state: the pending set and the cumulative id lists. -/
structure PollState where
  pending : List String
  completedIds : List String
  failedIds : List String
deriving DecidableEq, Repr

/-- One polling round: every pending id classified completed is appended to
`completedIds`, every one classified failed to `failedIds`, and the rest stay
pending.  (The sources iterate the settled results of the pending snapshot,
deleting from the set and pushing per id — on a duplicate-free pending set
that computes exactly this partition.) -/
def pollStep (isCompleted isFailed : String → Bool) (st : PollState) : PollState :=
  { pending := st.pending.filter (fun id => !isCompleted id && !isFailed id)
    completedIds := st.completedIds ++ st.pending.filter isCompleted
    failedIds := st.failedIds ++ st.pending.filter isFailed }

/-- The polling loop: while ids are pending and rounds remain, poll once and
invoke the callback with the cumulative snapshot. -/
def pollLoop {R : Type} (compF failF : R → String → Bool) (total : Nat) :
    List R → PollState → List IndexingProgress
  | [], _ => []
  | r :: rest, st =>
    if st.pending.isEmpty then []
    else
      let st1 := pollStep (compF r) (failF r) st
      ⟨st1.completedIds, st1.failedIds, total⟩ :: pollLoop compF failF total rest st1

/-- One mem0 polling round: the event status string returned by
`getEventStatus` (`none` = rejected fetch promise). -/
def Mem0Round : Type := String → Option String

/-- mem0: an event is completed when its status is `"SUCCEEDED"`. -/
def mem0Completed (r : Mem0Round) (eventId : String) : Bool :=
  r eventId == some "SUCCEEDED"

/-- mem0: an event is failed when its status is `"FAILED"`. -/
def mem0Failed (r : Mem0Round) (eventId : String) : Bool :=
  r eventId == some "FAILED"

/-- `Mem0Provider.awaitIndexing` from `src/unnamed/part_001`: empty id list →
a single `{[], [], 0}` callback; otherwise the initial `{[], [], total}`
callback followed by one callback per polling round. -/
def Mem0Provider.awaitIndexing (result : IngestResult) (rounds : List Mem0Round) :
    List IndexingProgress :=
  let eventIds := result.documentIds.getD []
  if eventIds.length == 0 then [⟨[], [], 0⟩]
  else
    let total := eventIds.length
    ⟨[], [], total⟩ ::
      pollLoop mem0Completed mem0Failed total rounds ⟨jsSet eventIds, [], []⟩

/-- One Supermemory polling round: per document id, the document status and
the memory status that `memories.get` would report (`none` = rejected
promise). -/
def SupermemoryRound : Type := String → Option (String × String)

/-- The value the per-document promise resolves to: the memory status is only
fetched when the document status is `"done"` or `"failed"`, otherwise it is
reported as `"pending"`. -/
def smPromiseValue (poll : String × String) : String × String :=
  if poll.1 == "done" || poll.1 == "failed" then poll else (poll.1, "pending")

/-- Supermemory: failed when the document or the memory status is `"failed"`. -/
def smFailed (r : SupermemoryRound) (docId : String) : Bool :=
  match r docId with
  | none => false
  | some poll =>
    let v := smPromiseValue poll
    v.1 == "failed" || v.2 == "failed"

/-- Supermemory: completed when both statuses are `"done"` (the source checks
the failed branch first; `"done"` excludes `"failed"`, so the branches are
disjoint). -/
def smCompleted (r : SupermemoryRound) (docId : String) : Bool :=
  match r docId with
  | none => false
  | some poll =>
    let v := smPromiseValue poll
    v.1 == "done" && v.2 == "done"

/-- `SupermemoryProvider.awaitIndexing` from
`src/src/providers/supermemory/index.ts`; `result.documentIds` is accessed
without a guard, so an absent list is modelled as `none` (the JS code would
throw a `TypeError` there). -/
def SupermemoryProvider.awaitIndexing (result : IngestResult)
    (rounds : List SupermemoryRound) : Option (List IndexingProgress) :=
  match result.documentIds with
  | none => none
  | some documentIds =>
    some
      (if documentIds.length == 0 then [⟨[], [], 0⟩]
       else
         let total := documentIds.length
         ⟨[], [], total⟩ ::
           pollLoop smCompleted smFailed total rounds ⟨jsSet documentIds, [], []⟩)

/-- The number of episode ids a callback snapshot accounts for. -/
def progressSum (p : IndexingProgress) : Nat :=
  p.completedIds.length + p.failedIds.length

/-- The claim's property of one item's callback trace: consecutive
`completedIds.length + failedIds.length` values are non-decreasing, each is
bounded by `total`, and each snapshot reports `total`. -/
def cumulativeMonotone (trace : List IndexingProgress) (total : Nat) : Prop :=
  List.Chain' (fun a b => progressSum a ≤ progressSum b) trace ∧
  ∀ p ∈ trace, progressSum p ≤ total ∧ p.total = total

/-! ## Concrete inputs used for counterexamples and witnesses -/

/-- A question whose ingest completed with two document ids, indexing pending. -/
def qTwoEpisodes : QuestionCheckpoint :=
  { questionId := "q1"
    phases := { ingest :=
      { status := .completed
        ingestResult := some { documentIds := some ["d1", "d2"] } } } }

/-- A question with no ingest result at all (all phases pending). -/
def qNoResult : QuestionCheckpoint :=
  { questionId := "q0"
    phases := { ingest := { status := .completed } } }

/-- A question whose ingest completed and whose indexing phase was left
`in_progress` (e.g. by a crash). -/
def qInProgress : QuestionCheckpoint :=
  { questionId := "q1"
    phases :=
      { ingest :=
          { status := .completed
            ingestResult := some { documentIds := some ["d1"] } }
        indexing := { status := .in_progress } } }

/-- A checkpoint containing only `qInProgress`. -/
def cpInProgress : RunCheckpoint :=
  { runId := "run-1", questions := [qInProgress] }

/-- A checkpoint containing only `qTwoEpisodes`. -/
def cpTwoEpisodes : RunCheckpoint :=
  { runId := "run-1", questions := [qTwoEpisodes] }

/-- A checkpoint containing only `qNoResult`. -/
def cpNoResult : RunCheckpoint :=
  { runId := "run-1", questions := [qNoResult] }

/-- A checkpoint with a single question that is not eligible for indexing
(ingest still pending). -/
def cpNothingEligible : RunCheckpoint :=
  { runId := "run-1"
    questions := [{ questionId := "q9" }] }

/-- A provider whose wait call resolves at once with no progress callbacks. -/
def providerResolves : ProviderModel :=
  { awaitIndexing := fun _ => .resolves [] }

/-- A provider whose wait call throws `"boom"` for every question. -/
def providerThrows : ProviderModel :=
  { awaitIndexing := fun _ => .throws [] "boom" }

/-- The ambient clock used in witnesses. -/
def envEx : Env := {}

/-- The tracker built over `qTwoEpisodes` only. -/
def trackerTwoEpisodes : IndexingProgressTracker := mkTracker [qTwoEpisodes]

/-- A cumulative progress snapshot: one of two episodes completed. -/
def progressOneOfTwo : IndexingProgress := ⟨["d1"], [], 2⟩

/-! ## Helper lemmas about the cascade -/

theorem resolveConcurrency_eq_cascade (phase : PhaseId)
    (cliConfig providerDefault : Option ConcurrencyConfig) :
    resolveConcurrency phase cliConfig providerDefault =
      firstDefinedInCascade phase cliConfig providerDefault := by
  unfold resolveConcurrency firstDefinedInCascade
  cases h1 : cliConfig.bind (fun c => c.phaseEntry phase) <;>
    cases h2 : cliConfig.bind (fun c => c.default) <;>
      cases h3 : providerDefault.bind (fun c => c.phaseEntry phase) <;>
        cases h4 : providerDefault.bind (fun c => c.default) <;>
          simp [h1, h2, h3, h4]

/-- C1: `resolveConcurrency` returns the first defined value of the cascade,
and the three concrete examples from the spec hold. -/
theorem resolveConcurrency_cascade_correct :
    (∀ (phase : PhaseId) (cliConfig providerDefault : Option ConcurrencyConfig),
      resolveConcurrency phase cliConfig providerDefault =
        firstDefinedInCascade phase cliConfig providerDefault) ∧
    resolveConcurrency .search
      (some { search := some 4 }) (some { search := some 50, default := some 10 }) = 4 ∧
    resolveConcurrency .search none (some { search := some 50, default := some 10 }) = 50 ∧
    resolveConcurrency .search none none = 1 :=
  ⟨resolveConcurrency_eq_cascade, rfl, rfl, rfl⟩

/-! ## C6: totality and the ≥ 1 bound -/

/-- C6 counterexample: a configuration may carry the value 0 (the interface
places no lower bound on its numbers), and the cascade returns it unchanged —
the result is not ≥ 1 for every configuration. -/
theorem resolveConcurrency_zero_config :
    ¬ (1 ≤ resolveConcurrency .search (some { default := some 0 }) none) := by
  decide

/-- C6 (amended): `resolveConcurrency` is total over all five phases, and its
result is ≥ 1 whenever every value present in the supplied configurations is
≥ 1 — in particular when both configurations are absent. -/
theorem resolveConcurrency_ge_one (phase : PhaseId)
    (cli prov : Option ConcurrencyConfig)
    (hc : optionalAllAtLeastOne cli) (hp : optionalAllAtLeastOne prov) :
    1 ≤ resolveConcurrency phase cli prov := by
  rw [resolveConcurrency_eq_cascade]
  unfold firstDefinedInCascade
  cases h1 : cli.bind (fun c => c.phaseEntry phase) with
  | some v =>
    obtain ⟨c, hcli, hentry⟩ := Option.bind_eq_some.mp h1
    subst hcli
    exact hc.2 phase v hentry
  | none =>
    cases h2 : cli.bind (fun c => c.default) with
    | some v =>
      obtain ⟨c, hcli, hdef⟩ := Option.bind_eq_some.mp h2
      subst hcli
      exact hc.1 v hdef
    | none =>
      cases h3 : prov.bind (fun c => c.phaseEntry phase) with
      | some v =>
        obtain ⟨c, hprov, hentry⟩ := Option.bind_eq_some.mp h3
        subst hprov
        exact hp.2 phase v hentry
      | none =>
        cases h4 : prov.bind (fun c => c.default) with
        | some v =>
          obtain ⟨c, hprov, hdef⟩ := Option.bind_eq_some.mp h4
          subst hprov
          exact hp.1 v hdef
        | none => simp

/-- Witness for C6's amended theorem at both-configurations-absent. -/
theorem resolveConcurrency_ge_one_witness :
    1 ≤ resolveConcurrency .search none none :=
  resolveConcurrency_ge_one .search none none trivial trivial

/-! ## Tracker lemmas -/

theorem displayStep_progressByQuestion (t : IndexingProgressTracker) :
    t.displayStep.1.progressByQuestion = t.progressByQuestion := by
  unfold IndexingProgressTracker.displayStep
  dsimp only
  split <;> rfl

theorem displayStep_totalEpisodes (t : IndexingProgressTracker) :
    t.displayStep.1.totalEpisodes = t.totalEpisodes := by
  unfold IndexingProgressTracker.displayStep
  dsimp only
  split <;> rfl

theorem displayStep_getAggregated (t : IndexingProgressTracker) :
    t.displayStep.1.getAggregated = t.getAggregated := by
  unfold IndexingProgressTracker.getAggregated
  rw [displayStep_progressByQuestion, displayStep_totalEpisodes]

theorem updateCounts_totalEpisodes (t : IndexingProgressTracker)
    (qid : String) (p : IndexingProgress) :
    (t.updateCounts qid p).totalEpisodes = t.totalEpisodes := by
  unfold IndexingProgressTracker.updateCounts
  cases assocGet t.progressByQuestion qid <;> rfl

theorem update_totalEpisodes (t : IndexingProgressTracker)
    (qid : String) (p : IndexingProgress) :
    (t.update qid p).1.totalEpisodes = t.totalEpisodes := by
  unfold IndexingProgressTracker.update
  rw [displayStep_totalEpisodes, updateCounts_totalEpisodes]

theorem markQuestionDone_totalEpisodes (t : IndexingProgressTracker)
    (qid : String) :
    (t.markQuestionDone qid).totalEpisodes = t.totalEpisodes := by
  unfold IndexingProgressTracker.markQuestionDone
  cases assocGet t.progressByQuestion qid <;> rfl

theorem applyTrackerOps_totalEpisodes (ops : List TrackerOp) :
    ∀ t : IndexingProgressTracker,
      (applyTrackerOps t ops).totalEpisodes = t.totalEpisodes := by
  induction ops with
  | nil => intro t; rfl
  | cons op rest ih =>
    intro t
    cases op with
    | update qid p =>
      rw [applyTrackerOps, ih, update_totalEpisodes]
    | markDone qid =>
      rw [applyTrackerOps, ih, markQuestionDone_totalEpisodes]

theorem mkTracker_foldl_totalEpisodes (qs : List QuestionCheckpoint) :
    ∀ t : IndexingProgressTracker,
      (qs.foldl mkTrackerStep t).totalEpisodes =
        t.totalEpisodes + (qs.map getEpisodeCount).sum := by
  induction qs with
  | nil => intro t; simp [List.foldl]
  | cons q rest ih =>
    intro t
    rw [List.foldl_cons, ih]
    show t.totalEpisodes + getEpisodeCount q + _ = _
    simp [List.map_cons, List.sum_cons]
    omega

theorem mkTracker_totalEpisodes (qs : List QuestionCheckpoint) :
    (mkTracker qs).totalEpisodes = (qs.map getEpisodeCount).sum := by
  unfold mkTracker
  rw [mkTracker_foldl_totalEpisodes]
  simp

/-- C10: the aggregated total is fixed at construction — it equals the sum of
the episode counts derived from the questions' ingest results, and no sequence
of `update`/`markQuestionDone` calls changes it (even when a callback reports
a different per-item total). -/
theorem tracker_total_fixed_at_construction (qs : List QuestionCheckpoint)
    (ops : List TrackerOp) :
    (applyTrackerOps (mkTracker qs) ops).getAggregated.total =
      (qs.map getEpisodeCount).sum := by
  show (applyTrackerOps (mkTracker qs) ops).totalEpisodes = _
  rw [applyTrackerOps_totalEpisodes, mkTracker_totalEpisodes]

/-! ## C9: update replaces counts; aggregation is the current sum -/

theorem assoc_any_of_get {l : List (String × ItemCounts)} {k : String}
    {c : ItemCounts} (h : assocGet l k = some c) :
    l.any (fun e => e.1 = k) = true := by
  unfold assocGet at h
  cases hf : l.find? (fun e => e.1 = k) with
  | none => rw [hf] at h; simp at h
  | some e =>
    have hmem := List.mem_of_find?_eq_some hf
    have hpred := List.find?_some hf
    exact List.any_eq_true.mpr ⟨e, hmem, hpred⟩

theorem assocGet_replace (k : String) (v : ItemCounts) :
    ∀ l : List (String × ItemCounts), l.any (fun e => e.1 = k) = true →
      assocGet (l.map (fun e => if e.1 = k then (k, v) else e)) k = some v := by
  intro l
  induction l with
  | nil => intro h; simp at h
  | cons e t ih =>
    intro h
    by_cases he : e.1 = k
    · unfold assocGet
      simp [List.find?, he]
    · have h' : t.any (fun e => e.1 = k) = true := by
        simp [List.any_cons, he] at h
        simpa using h
      unfold assocGet at ih ⊢
      simpa [List.find?, he] using ih h'

theorem assocSum_replace (f : ItemCounts → Nat) (k : String) (v : ItemCounts) :
    ∀ (l : List (String × ItemCounts)) (c : ItemCounts),
      (l.map Prod.fst).Nodup → assocGet l k = some c →
      ((l.map (fun e => if e.1 = k then (k, v) else e)).map (fun e => f e.2)).sum + f c
        = (l.map (fun e => f e.2)).sum + f v := by
  intro l
  induction l with
  | nil => intro c _ h; simp [assocGet] at h
  | cons e t ih =>
    intro c hnd h
    rw [List.map_cons] at hnd
    have hnd' := List.nodup_cons.mp hnd
    by_cases he : e.1 = k
    · have hc : c = e.2 := by
        unfold assocGet at h
        simp [List.find?, he] at h
        exact h.symm
      have htail : t.map (fun e => if e.1 = k then (k, v) else e) = t := by
        have : ∀ x ∈ t, (if x.1 = k then (k, v) else x) = x := by
          intro x hx
          have hxk : x.1 ≠ k := by
            intro hxk
            exact hnd'.1 (by rw [he, ← hxk]; exact List.mem_map_of_mem Prod.fst hx)
          simp [hxk]
        calc t.map (fun e => if e.1 = k then (k, v) else e) = t.map id :=
              List.map_congr_left this
          _ = t := List.map_id t
      rw [List.map_cons, List.map_cons, List.map_cons, if_pos he, htail, hc]
      simp only [List.sum_cons]
      omega
    · have h' : assocGet t k = some c := by
        unfold assocGet at h ⊢
        simpa [List.find?, he] using h
      have ihe := ih c hnd'.2 h'
      rw [List.map_cons, List.map_cons, List.map_cons, if_neg he]
      simp only [List.sum_cons]
      omega

/-- C9: `update(questionId, progress)` replaces the stored counts with the
snapshot's lengths irrespective of the previous counts, and `getAggregated`
reflects exactly that replacement in its sums while leaving the total
untouched. -/
theorem tracker_update_replaces (t : IndexingProgressTracker) (qid : String)
    (progress : IndexingProgress) (c : ItemCounts)
    (hnd : (t.progressByQuestion.map Prod.fst).Nodup)
    (hget : assocGet t.progressByQuestion qid = some c) :
    assocGet (t.update qid progress).1.progressByQuestion qid =
      some ⟨progress.completedIds.length, progress.failedIds.length, progress.total⟩ ∧
    (t.update qid progress).1.getAggregated.completed + c.completed =
      t.getAggregated.completed + progress.completedIds.length ∧
    (t.update qid progress).1.getAggregated.failed + c.failed =
      t.getAggregated.failed + progress.failedIds.length ∧
    (t.update qid progress).1.getAggregated.total = t.getAggregated.total := by
  have hany := assoc_any_of_get hget
  have hpbq : (t.update qid progress).1.progressByQuestion =
      t.progressByQuestion.map (fun e => if e.1 = qid then
        (qid, (⟨progress.completedIds.length, progress.failedIds.length,
          progress.total⟩ : ItemCounts)) else e) := by
    unfold IndexingProgressTracker.update
    rw [displayStep_progressByQuestion]
    unfold IndexingProgressTracker.updateCounts
    rw [hget]
    dsimp only
    unfold assocSet
    rw [if_pos hany]
  have htot : (t.update qid progress).1.totalEpisodes = t.totalEpisodes :=
    update_totalEpisodes t qid progress
  refine ⟨?_, ?_, ?_, ?_⟩
  · rw [hpbq]
    exact assocGet_replace qid _ t.progressByQuestion hany
  · show ((t.update qid progress).1.progressByQuestion.map
        (fun e => e.2.completed)).sum + c.completed = _
    rw [hpbq]
    exact assocSum_replace (fun ic => ic.completed) qid _ t.progressByQuestion c hnd hget
  · show ((t.update qid progress).1.progressByQuestion.map
        (fun e => e.2.failed)).sum + c.failed = _
    rw [hpbq]
    exact assocSum_replace (fun ic => ic.failed) qid _ t.progressByQuestion c hnd hget
  · show (t.update qid progress).1.totalEpisodes = t.totalEpisodes
    exact htot

/-- Witness for C9 on a concrete tracker holding one question with two
episodes. -/
theorem tracker_update_replaces_witness :
    assocGet (trackerTwoEpisodes.update "q1" progressOneOfTwo).1.progressByQuestion "q1" =
      some ⟨1, 0, 2⟩ ∧
    (trackerTwoEpisodes.update "q1" progressOneOfTwo).1.getAggregated.total =
      trackerTwoEpisodes.getAggregated.total := by
  have h := tracker_update_replaces trackerTwoEpisodes "q1" progressOneOfTwo
    ⟨0, 0, 2⟩ (by decide) (by decide)
  exact ⟨h.1, h.2.2.2⟩

/-! ## C2: ordering of persist and display inside the progress callback -/

/-- C2 counterexample: on a fresh tracker over one two-episode question, the
callback for the snapshot "one of two completed" emits the aggregate display
write before the checkpoint persist — the trace has a display event with no
persist event before it. -/
theorem indexingCallback_display_before_persist :
    persistBeforeDisplay false
      (indexingCallbackStep cpTwoEpisodes trackerTwoEpisodes "q1"
        progressOneOfTwo).2.2 = false := by
  decide

/-- C2 (amended): within every single invocation of the indexing progress
callback, the partial cumulative ids are persisted as the last event of the
invocation, after the aggregate display update (which is the only other kind
of event the invocation emits). -/
theorem indexingCallback_persist_after_display (cp : RunCheckpoint)
    (tr : IndexingProgressTracker) (qid : String) (progress : IndexingProgress) :
    ∃ ds, (indexingCallbackStep cp tr qid progress).2.2 =
        ds ++ [.persist qid .indexing (progressUpdate progress)] ∧
      ∀ e ∈ ds, e.isDisplay = true := by
  refine ⟨(tr.update qid progress).2, rfl, ?_⟩
  unfold IndexingProgressTracker.update IndexingProgressTracker.displayStep
  dsimp only
  split
  · intro e he; simp at he
  · intro e he
    simp at he
    rw [he]
    rfl

/-! ## Checkpoint-lookup lemmas for the runner -/

theorem applyPhaseUpdate_questionId (qid : String) (ph : PhaseId) (p : PhaseUpdate)
    (q : QuestionCheckpoint) :
    (applyPhaseUpdate qid ph p q).questionId = q.questionId := by
  unfold applyPhaseUpdate
  split <;> rfl

theorem lookupQuestion_updatePhase (cp : RunCheckpoint) (qid' : String)
    (ph : PhaseId) (p : PhaseUpdate) (qid : String) :
    lookupQuestion (updatePhase cp qid' ph p) qid =
      (lookupQuestion cp qid).map (applyPhaseUpdate qid' ph p) := by
  unfold lookupQuestion updatePhase
  dsimp only
  rw [List.find?_map]
  have hpred : ((fun q => decide (q.questionId = qid)) ∘ applyPhaseUpdate qid' ph p)
      = fun q : QuestionCheckpoint => decide (q.questionId = qid) := by
    funext a
    show decide ((applyPhaseUpdate qid' ph p a).questionId = qid) = _
    rw [applyPhaseUpdate_questionId]
  rw [hpred]

theorem lookupQuestion_some_id {cp : RunCheckpoint} {qid : String}
    {a : QuestionCheckpoint} (h : lookupQuestion cp qid = some a) :
    a.questionId = qid := by
  unfold lookupQuestion at h
  have := List.find?_some h
  simpa using this

theorem lookupIndexing_updatePhase_other {qid qid' : String}
    (cp : RunCheckpoint) (ph : PhaseId) (p : PhaseUpdate) (h : qid ≠ qid') :
    lookupIndexing (updatePhase cp qid' ph p) qid = lookupIndexing cp qid := by
  unfold lookupIndexing
  rw [lookupQuestion_updatePhase]
  cases hf : lookupQuestion cp qid with
  | none => rfl
  | some a =>
    have ha := lookupQuestion_some_id hf
    have heq : applyPhaseUpdate qid' ph p a = a := by
      unfold applyPhaseUpdate
      rw [if_neg (by rw [ha]; exact h)]
    simp only [Option.map_some', heq]

theorem lookupIndexing_updatePhase_self (cp : RunCheckpoint) (qid : String)
    (p : PhaseUpdate) :
    lookupIndexing (updatePhase cp qid .indexing p) qid =
      (lookupIndexing cp qid).map (fun ps => mergePhase ps p) := by
  unfold lookupIndexing
  rw [lookupQuestion_updatePhase]
  cases hf : lookupQuestion cp qid with
  | none => rfl
  | some a =>
    have ha := lookupQuestion_some_id hf
    simp only [Option.map_some']
    unfold applyPhaseUpdate
    rw [if_pos ha]
    rfl

theorem updatePhase_ids (cp : RunCheckpoint) (qid : String) (ph : PhaseId)
    (p : PhaseUpdate) :
    (updatePhase cp qid ph p).questions.map (fun q => q.questionId) =
      cp.questions.map (fun q => q.questionId) := by
  unfold updatePhase
  dsimp only
  rw [List.map_map]
  exact List.map_congr_left (fun a _ => applyPhaseUpdate_questionId qid ph p a)

theorem lookupQuestion_isSome_iff (cp : RunCheckpoint) (qid : String) :
    (lookupQuestion cp qid).isSome = true ↔
      qid ∈ cp.questions.map (fun q => q.questionId) := by
  unfold lookupQuestion
  rw [List.find?_isSome]
  constructor
  · rintro ⟨x, hx, hp⟩
    exact List.mem_map.mpr ⟨x, hx, by simpa using hp⟩
  · intro h
    obtain ⟨x, hx, hxq⟩ := List.mem_map.mp h
    exact ⟨x, hx, by simpa using hxq⟩

/-! ## Frame lemmas for the runner -/

theorem runCallbacks_lookup_other {qid' qid : String} (h : qid' ≠ qid)
    (calls : List IndexingProgress) :
    ∀ (cp : RunCheckpoint) (tr : IndexingProgressTracker),
      lookupIndexing (runCallbacks cp tr qid calls).1 qid' = lookupIndexing cp qid' := by
  induction calls with
  | nil => intro cp tr; rfl
  | cons c rest ih =>
    intro cp tr
    show lookupIndexing (runCallbacks (indexingCallbackStep cp tr qid c).1 _ qid rest).1 qid' = _
    rw [ih]
    exact lookupIndexing_updatePhase_other cp .indexing (progressUpdate c) h

theorem runCallbacks_ids (qid : String) (calls : List IndexingProgress) :
    ∀ (cp : RunCheckpoint) (tr : IndexingProgressTracker),
      (runCallbacks cp tr qid calls).1.questions.map (fun q => q.questionId) =
        cp.questions.map (fun q => q.questionId) := by
  induction calls with
  | nil => intro cp tr; rfl
  | cons c rest ih =>
    intro cp tr
    show (runCallbacks (indexingCallbackStep cp tr qid c).1 _ qid rest).1.questions.map _ = _
    rw [ih]
    exact updatePhase_ids cp qid .indexing (progressUpdate c)

theorem runIndexingItem_ids (provider : ProviderModel) (cp : RunCheckpoint)
    (tr : IndexingProgressTracker) (q : QuestionCheckpoint) (env : Env) :
    (runIndexingItem provider cp tr q env).checkpoint.questions.map (fun q => q.questionId) =
      cp.questions.map (fun q => q.questionId) := by
  unfold runIndexingItem
  dsimp only
  split
  · exact updatePhase_ids cp q.questionId .indexing (zeroEpisodeDone env)
  · cases hb : provider.awaitIndexing q.questionId with
    | resolves calls =>
      dsimp only
      rw [updatePhase_ids, runCallbacks_ids, updatePhase_ids]
    | throws calls message =>
      dsimp only
      rw [updatePhase_ids, runCallbacks_ids, updatePhase_ids]

theorem runIndexingItem_lookup_other {qid : String} (provider : ProviderModel)
    (cp : RunCheckpoint) (tr : IndexingProgressTracker) (q : QuestionCheckpoint)
    (env : Env) (h : qid ≠ q.questionId) :
    lookupIndexing (runIndexingItem provider cp tr q env).checkpoint qid =
      lookupIndexing cp qid := by
  unfold runIndexingItem
  dsimp only
  split
  · exact lookupIndexing_updatePhase_other cp .indexing (zeroEpisodeDone env) h
  · cases hb : provider.awaitIndexing q.questionId with
    | resolves calls =>
      dsimp only
      rw [lookupIndexing_updatePhase_other _ _ _ h, runCallbacks_lookup_other h,
        lookupIndexing_updatePhase_other _ _ _ h]
    | throws calls message =>
      dsimp only
      rw [lookupIndexing_updatePhase_other _ _ _ h, runCallbacks_lookup_other h,
        lookupIndexing_updatePhase_other _ _ _ h]

theorem runItems_cons (provider : ProviderModel) (env : Env)
    (q : QuestionCheckpoint) (rest : List QuestionCheckpoint) (cp : RunCheckpoint)
    (tr : IndexingProgressTracker) (evs : List Event) :
    runItems provider env (q :: rest) cp tr evs =
      match (runIndexingItem provider cp tr q env).result with
      | .ok _ => runItems provider env rest (runIndexingItem provider cp tr q env).checkpoint
          (runIndexingItem provider cp tr q env).tracker
          (evs ++ (runIndexingItem provider cp tr q env).events)
      | .error e => (.error e, (runIndexingItem provider cp tr q env).checkpoint,
          (runIndexingItem provider cp tr q env).tracker,
          evs ++ (runIndexingItem provider cp tr q env).events) := rfl

theorem runItems_lookup_other (provider : ProviderModel) (env : Env) (qid : String) :
    ∀ (qs : List QuestionCheckpoint) (cp : RunCheckpoint)
      (tr : IndexingProgressTracker) (evs : List Event),
      qid ∉ qs.map (fun q => q.questionId) →
      lookupIndexing (runItems provider env qs cp tr evs).2.1 qid = lookupIndexing cp qid := by
  intro qs
  induction qs with
  | nil => intro cp tr evs _; rfl
  | cons q rest ih =>
    intro cp tr evs h
    rw [List.map_cons, List.mem_cons, not_or] at h
    rw [runItems_cons]
    cases ho : (runIndexingItem provider cp tr q env).result with
    | ok r =>
      dsimp only
      rw [ih _ _ _ h.2]
      exact runIndexingItem_lookup_other provider cp tr q env h.1
    | error e =>
      dsimp only
      exact runIndexingItem_lookup_other provider cp tr q env h.1

/-! ## C5: the eligibility set and the frame property -/

/-- C5 counterexample: a question whose indexing phase is `in_progress` (not
`pending` or `failed`) is nevertheless selected by the runner's filter, so the
processed set is not "ingest completed and indexing pending-or-failed". -/
theorem eligible_includes_in_progress :
    qInProgress ∈ eligibleForIndexing cpInProgress none ∧
    qInProgress.phases.indexing.status ≠ PhaseStatus.pending ∧
    qInProgress.phases.indexing.status ≠ PhaseStatus.failed := by
  refine ⟨?_, by decide, by decide⟩
  decide

/-- C5 (amended): the processed set is exactly the questions with ingest
`completed` and indexing **not `completed`** (`pending`, `in_progress` or
`failed`), intersected with the caller-supplied id subset when given; and the
phase leaves the indexing state of every question outside that set unchanged. -/
theorem eligibleForIndexing_spec :
    (∀ (cp : RunCheckpoint) (ids : List String) (q : QuestionCheckpoint),
      q ∈ eligibleForIndexing cp (some ids) ↔
        q ∈ cp.questions ∧ q.questionId ∈ ids ∧
          q.phases.ingest.status = .completed ∧ q.phases.indexing.status ≠ .completed) ∧
    (∀ (cp : RunCheckpoint) (q : QuestionCheckpoint),
      q ∈ eligibleForIndexing cp none ↔
        q ∈ cp.questions ∧
          q.phases.ingest.status = .completed ∧ q.phases.indexing.status ≠ .completed) ∧
    (∀ (provider : ProviderModel) (cp : RunCheckpoint) (qids : Option (List String))
      (env : Env) (qid : String),
      qid ∉ (eligibleForIndexing cp qids).map (fun q => q.questionId) →
      lookupIndexing (runIndexingPhase provider cp qids env).checkpoint qid =
        lookupIndexing cp qid) := by
  refine ⟨?_, ?_, ?_⟩
  · intro cp ids q
    unfold eligibleForIndexing
    simp [List.mem_filter, and_assoc]
    tauto
  · intro cp q
    unfold eligibleForIndexing
    simp [List.mem_filter, and_assoc]
  · intro provider cp qids env qid h
    unfold runIndexingPhase
    dsimp only
    split
    · rfl
    · split
      · exact runItems_lookup_other provider env qid _ _ _ _ h
      · exact runItems_lookup_other provider env qid _ _ _ _ h

/-- Witness for C5's amended frame property on a concrete checkpoint. -/
theorem eligibleForIndexing_spec_witness :
    lookupIndexing (runIndexingPhase providerResolves cpInProgress none envEx).checkpoint "zz" =
      lookupIndexing cpInProgress "zz" :=
  eligibleForIndexing_spec.2.2 providerResolves cpInProgress none envEx "zz" (by decide)

/-! ## C8: empty eligible set -/

/-- C8: when no question is eligible, the phase returns at once — the
checkpoint object is unchanged, and the event trace contains neither a
checkpoint persist nor a concurrency resolution. -/
theorem runIndexingPhase_noEligible (provider : ProviderModel) (cp : RunCheckpoint)
    (qids : Option (List String)) (env : Env)
    (h : eligibleForIndexing cp qids = []) :
    (runIndexingPhase provider cp qids env).checkpoint = cp ∧
    (runIndexingPhase provider cp qids env).events.all
      (fun e => !e.isPersist && !e.isResolvedConcurrency) = true := by
  unfold runIndexingPhase
  dsimp only
  rw [h]
  exact ⟨rfl, rfl⟩

/-- Witness for C8 on a checkpoint whose single question has not finished
ingest. -/
theorem runIndexingPhase_noEligible_witness :
    (runIndexingPhase providerResolves cpNothingEligible none envEx).checkpoint =
      cpNothingEligible :=
  (runIndexingPhase_noEligible providerResolves cpNothingEligible none envEx (by decide)).1

/-! ## C3: the zero-episode shortcut -/

/-- C3: a question whose ingest result is absent or whose episode count is
zero is marked indexing-completed with empty id lists and duration 0 in a
single persist, and the provider's wait call is never invoked for it. -/
theorem runIndexingItem_zeroEpisodes (provider : ProviderModel) (cp : RunCheckpoint)
    (tr : IndexingProgressTracker) (q : QuestionCheckpoint) (env : Env)
    (h : q.phases.ingest.ingestResult = none ∨ getEpisodeCount q = 0) :
    (runIndexingItem provider cp tr q env).events =
      [.persist q.questionId .indexing (zeroEpisodeDone env)] ∧
    (runIndexingItem provider cp tr q env).result = .ok ⟨q.questionId, 0⟩ ∧
    Event.awaitIndexingCall q.questionId ∉ (runIndexingItem provider cp tr q env).events ∧
    ∀ ps, lookupIndexing cp q.questionId = some ps →
      lookupIndexing (runIndexingItem provider cp tr q env).checkpoint q.questionId =
        some (mergePhase ps (zeroEpisodeDone env)) ∧
      (mergePhase ps (zeroEpisodeDone env)).status = .completed ∧
      (mergePhase ps (zeroEpisodeDone env)).completedIds = some [] ∧
      (mergePhase ps (zeroEpisodeDone env)).failedIds = some [] ∧
      (mergePhase ps (zeroEpisodeDone env)).durationMs = some 0 := by
  have hcond : (q.phases.ingest.ingestResult.isNone || (getEpisodeCount q == 0)) = true := by
    cases h with
    | inl h => simp [h]
    | inr h => simp [h]
  unfold runIndexingItem
  dsimp only
  rw [if_pos hcond]
  refine ⟨rfl, rfl, by simp, ?_⟩
  intro ps hps
  rw [lookupIndexing_updatePhase_self, hps]
  exact ⟨rfl, rfl, rfl, rfl, rfl⟩

/-- Witness for C3 on a question with no ingest result at all. -/
theorem runIndexingItem_zeroEpisodes_witness :
    (runIndexingItem providerResolves cpNoResult (mkTracker [qNoResult]) qNoResult envEx).result =
      .ok ⟨"q0", 0⟩ ∧
    Event.awaitIndexingCall "q0" ∉
      (runIndexingItem providerResolves cpNoResult (mkTracker [qNoResult]) qNoResult envEx).events := by
  have h := runIndexingItem_zeroEpisodes providerResolves cpNoResult
    (mkTracker [qNoResult]) qNoResult envEx (Or.inl rfl)
  exact ⟨h.2.1, h.2.2.1⟩

/-! ## C4: a thrown wait call is fatal for the phase -/

theorem runIndexingItem_ok_of_not_throws (provider : ProviderModel)
    (cp : RunCheckpoint) (tr : IndexingProgressTracker) (q : QuestionCheckpoint)
    (env : Env) (h : ∀ c m, provider.awaitIndexing q.questionId ≠ .throws c m) :
    ∃ r, (runIndexingItem provider cp tr q env).result = .ok r := by
  unfold runIndexingItem
  dsimp only
  split
  · exact ⟨⟨q.questionId, 0⟩, rfl⟩
  · cases hb : provider.awaitIndexing q.questionId with
    | resolves calls => exact ⟨⟨q.questionId, env.elapsedMs⟩, rfl⟩
    | throws calls message => exact absurd hb (h calls message)

theorem runItems_prefix_ok (provider : ProviderModel) (env : Env) :
    ∀ (pre rest : List QuestionCheckpoint) (cp : RunCheckpoint)
      (tr : IndexingProgressTracker) (evs : List Event),
      (∀ p ∈ pre, ∀ c m, provider.awaitIndexing p.questionId ≠ .throws c m) →
      ∃ cp' tr' evs',
        runItems provider env (pre ++ rest) cp tr evs =
          runItems provider env rest cp' tr' evs' ∧
        cp'.questions.map (fun q => q.questionId) =
          cp.questions.map (fun q => q.questionId) := by
  intro pre
  induction pre with
  | nil => intro rest cp tr evs _; exact ⟨cp, tr, evs, rfl, rfl⟩
  | cons p pre ih =>
    intro rest cp tr evs h
    obtain ⟨r, hr⟩ := runIndexingItem_ok_of_not_throws provider cp tr p env
      (h p (List.mem_cons_self p pre))
    obtain ⟨cp', tr', evs', heq, hids⟩ := ih rest
      (runIndexingItem provider cp tr p env).checkpoint
      (runIndexingItem provider cp tr p env).tracker
      (evs ++ (runIndexingItem provider cp tr p env).events)
      (fun x hx c m => h x (List.mem_cons_of_mem p hx) c m)
    refine ⟨cp', tr', evs', ?_, ?_⟩
    · rw [List.cons_append, runItems_cons, hr]
      exact heq
    · rw [hids, runIndexingItem_ids]

theorem runIndexingItem_throws_spec (provider : ProviderModel) (cp : RunCheckpoint)
    (tr : IndexingProgressTracker) (q : QuestionCheckpoint) (env : Env)
    (calls : List IndexingProgress) (message : String)
    (hb : provider.awaitIndexing q.questionId = .throws calls message)
    (hres : q.phases.ingest.ingestResult.isSome = true)
    (hcount : getEpisodeCount q ≠ 0)
    (hsome : (lookupQuestion cp q.questionId).isSome = true) :
    (runIndexingItem provider cp tr q env).result =
      .error (indexingFatalMessage q.questionId message) ∧
    ∃ ps, lookupIndexing (runIndexingItem provider cp tr q env).checkpoint
        q.questionId = some ps ∧
      ps.status = .failed ∧ ps.error = some message := by
  have hcond : (q.phases.ingest.ingestResult.isNone || (getEpisodeCount q == 0)) = false := by
    obtain ⟨ir, hir⟩ := Option.isSome_iff_exists.mp hres
    simp [hir, hcount]
  unfold runIndexingItem
  dsimp only
  rw [if_neg (by rw [hcond]; exact Bool.false_ne_true)]
  rw [hb]
  dsimp only
  refine ⟨rfl, ?_⟩
  rw [lookupIndexing_updatePhase_self]
  have hids1 : (runCallbacks
        (updatePhase cp q.questionId .indexing (startIndexingUpdate env))
        tr q.questionId calls).1.questions.map (fun q => q.questionId) =
      cp.questions.map (fun q => q.questionId) := by
    rw [runCallbacks_ids, updatePhase_ids]
  have hsome2 : (lookupQuestion (runCallbacks
      (updatePhase cp q.questionId .indexing (startIndexingUpdate env))
      tr q.questionId calls).1 q.questionId).isSome = true := by
    rw [lookupQuestion_isSome_iff, hids1, ← lookupQuestion_isSome_iff]
    exact hsome
  obtain ⟨a, ha⟩ := Option.isSome_iff_exists.mp hsome2
  have hpl : lookupIndexing (runCallbacks
      (updatePhase cp q.questionId .indexing (startIndexingUpdate env))
      tr q.questionId calls).1 q.questionId = some a.phases.indexing := by
    unfold lookupIndexing
    rw [ha]
    rfl
  rw [hpl]
  exact ⟨mergePhase a.phases.indexing (failedIndexingUpdate message), rfl, rfl, rfl⟩

/-- C4: when the provider's wait call throws for a question (the first such
question the executor reaches), the runner records the failure in that
question's indexing checkpoint state (`failed` with the thrown message) and
the whole indexing phase rejects with the fatal message instructing the
operator to resume with the same run id — the phase does not continue past
the failure as it would for other phases' item failures. -/
theorem runIndexingPhase_fatal (provider : ProviderModel) (cp : RunCheckpoint)
    (qids : Option (List String)) (env : Env)
    (pre post : List QuestionCheckpoint) (q : QuestionCheckpoint)
    (calls : List IndexingProgress) (message : String)
    (hsplit : eligibleForIndexing cp qids = pre ++ q :: post)
    (hpre : ∀ p ∈ pre, ∀ c m, provider.awaitIndexing p.questionId ≠ .throws c m)
    (hthrow : provider.awaitIndexing q.questionId = .throws calls message)
    (hres : q.phases.ingest.ingestResult.isSome = true)
    (hcount : getEpisodeCount q ≠ 0) :
    (runIndexingPhase provider cp qids env).result =
      .error (indexingFatalMessage q.questionId message) ∧
    ∃ ps, lookupIndexing (runIndexingPhase provider cp qids env).checkpoint
        q.questionId = some ps ∧
      ps.status = .failed ∧ ps.error = some message := by
  have hqmem : q ∈ cp.questions := by
    have : q ∈ eligibleForIndexing cp qids := by
      rw [hsplit]
      exact List.mem_append_right pre (List.mem_cons_self q post)
    unfold eligibleForIndexing at this
    have := List.mem_filter.mp this
    cases qids with
    | none => exact this.1
    | some ids => exact (List.mem_filter.mp this.1).1
  have hne : (eligibleForIndexing cp qids).isEmpty = false := by
    rw [hsplit]
    cases pre <;> rfl
  unfold runIndexingPhase
  dsimp only
  rw [if_neg (by rw [hne]; exact Bool.false_ne_true)]
  rw [hsplit]
  obtain ⟨cp', tr', evs', heq, hids⟩ := runItems_prefix_ok provider env pre (q :: post)
    cp ((mkTracker (pre ++ q :: post)).displayStep.1)
    ([.resolvedConcurrency (resolveConcurrency .indexing cp.concurrency provider.concurrency),
      .log ("Awaiting indexing for " ++ toString (pre ++ q :: post).length ++ " questions")]
      ++ (mkTracker (pre ++ q :: post)).displayStep.2) hpre
  rw [heq]
  have hsome : (lookupQuestion cp' q.questionId).isSome = true := by
    rw [lookupQuestion_isSome_iff, hids, ← lookupQuestion_isSome_iff,
      lookupQuestion_isSome_iff]
    exact List.mem_map_of_mem (fun q => q.questionId) hqmem
  have hitem := runIndexingItem_throws_spec provider cp' tr' q env calls message
    hthrow hres hcount hsome
  rw [runItems_cons, hitem.1]
  dsimp only
  exact ⟨rfl, hitem.2⟩

/-- Witness for C4: a one-question checkpoint whose provider throws `"boom"`. -/
theorem runIndexingPhase_fatal_witness :
    (runIndexingPhase providerThrows cpTwoEpisodes none envEx).result =
      .error (indexingFatalMessage "q1" "boom") := by
  have h := runIndexingPhase_fatal providerThrows cpTwoEpisodes none envEx
    [] [] qTwoEpisodes [] "boom" (by decide) (by intro p hp; simp at hp) rfl rfl
    (by decide)
  exact h.1

/-! ## C7: cumulative, monotone progress callbacks in the provider loops -/

theorem pollStep_le (c f : String → Bool) (st : PollState) :
    st.completedIds.length + st.failedIds.length ≤
      (pollStep c f st).completedIds.length + (pollStep c f st).failedIds.length := by
  unfold pollStep
  dsimp only
  rw [List.length_append, List.length_append]
  omega

theorem filter_partition (c f : String → Bool)
    (hdisj : ∀ x, c x = true → f x = false) :
    ∀ l : List String,
      (l.filter c).length + (l.filter f).length +
        (l.filter (fun x => !c x && !f x)).length = l.length := by
  intro l
  induction l with
  | nil => rfl
  | cons a t ih =>
    cases hc : c a with
    | true =>
      have hf := hdisj a hc
      simp [List.filter_cons, hc, hf]
      omega
    | false =>
      cases hf : f a with
      | true =>
        simp [List.filter_cons, hc, hf]
        omega
      | false =>
        simp [List.filter_cons, hc, hf]
        omega

theorem pollStep_conserves (c f : String → Bool)
    (hdisj : ∀ x, c x = true → f x = false) (st : PollState) :
    (pollStep c f st).completedIds.length + (pollStep c f st).failedIds.length +
        (pollStep c f st).pending.length =
      st.completedIds.length + st.failedIds.length + st.pending.length := by
  unfold pollStep
  dsimp only
  rw [List.length_append, List.length_append]
  have := filter_partition c f hdisj st.pending
  omega

theorem pollLoop_total {R : Type} (compF failF : R → String → Bool) (total : Nat) :
    ∀ (rounds : List R) (st : PollState),
      ∀ p ∈ pollLoop compF failF total rounds st, p.total = total := by
  intro rounds
  induction rounds with
  | nil => intro st p hp; simp [pollLoop] at hp
  | cons r rest ih =>
    intro st p hp
    by_cases hpend : st.pending.isEmpty = true
    · simp [pollLoop, hpend] at hp
    · simp only [pollLoop, hpend, Bool.false_eq_true, if_false, List.mem_cons] at hp
      cases hp with
      | inl h => rw [h]
      | inr h => exact ih _ p h

theorem pollLoop_chain {R : Type} (compF failF : R → String → Bool) (total : Nat) :
    ∀ (rounds : List R) (st : PollState),
      List.Chain (fun a b => a ≤ b)
        (st.completedIds.length + st.failedIds.length)
        ((pollLoop compF failF total rounds st).map progressSum) := by
  intro rounds
  induction rounds with
  | nil => intro st; simp [pollLoop]
  | cons r rest ih =>
    intro st
    by_cases hpend : st.pending.isEmpty = true
    · simp [pollLoop, hpend]
    · simp only [pollLoop, hpend, Bool.false_eq_true, if_false, List.map_cons]
      exact List.Chain.cons (pollStep_le (compF r) (failF r) st)
        (ih (pollStep (compF r) (failF r) st))

theorem pollLoop_bound {R : Type} (compF failF : R → String → Bool) (total : Nat)
    (hdisj : ∀ (r : R) (x : String), compF r x = true → failF r x = false) :
    ∀ (rounds : List R) (st : PollState),
      ∀ p ∈ pollLoop compF failF total rounds st,
        progressSum p ≤
          st.completedIds.length + st.failedIds.length + st.pending.length := by
  intro rounds
  induction rounds with
  | nil => intro st p hp; simp [pollLoop] at hp
  | cons r rest ih =>
    intro st p hp
    by_cases hpend : st.pending.isEmpty = true
    · simp [pollLoop, hpend] at hp
    · simp only [pollLoop, hpend, Bool.false_eq_true, if_false, List.mem_cons] at hp
      have hcons := pollStep_conserves (compF r) (failF r) (fun x => hdisj r x) st
      cases hp with
      | inl h =>
        have : progressSum p = (pollStep (compF r) (failF r) st).completedIds.length +
            (pollStep (compF r) (failF r) st).failedIds.length := by
          rw [h]; rfl
        omega
      | inr h =>
        have := ih (pollStep (compF r) (failF r) st) p h
        omega

theorem jsSet_foldl_length (ids : List String) :
    ∀ acc : List String,
      (ids.foldl (fun acc id => if id ∈ acc then acc else acc ++ [id]) acc).length ≤
        acc.length + ids.length := by
  induction ids with
  | nil => intro acc; simp
  | cons a t ih =>
    intro acc
    rw [List.foldl_cons]
    by_cases h : a ∈ acc
    · rw [if_pos h]
      have := ih acc
      simp only [List.length_cons]
      omega
    · rw [if_neg h]
      have := ih (acc ++ [a])
      simp only [List.length_append, List.length_singleton, List.length_cons,
        List.length_nil] at this ⊢
      omega

theorem jsSet_length_le (ids : List String) : (jsSet ids).length ≤ ids.length := by
  have := jsSet_foldl_length ids []
  simpa [jsSet] using this

theorem pollTrace_monotone {R : Type} (compF failF : R → String → Bool)
    (hdisj : ∀ (r : R) (x : String), compF r x = true → failF r x = false)
    (ids : List String) (rounds : List R) :
    cumulativeMonotone
      (⟨[], [], ids.length⟩ ::
        pollLoop compF failF ids.length rounds ⟨jsSet ids, [], []⟩)
      ids.length := by
  constructor
  · show List.Chain (fun a b => progressSum a ≤ progressSum b) ⟨[], [], ids.length⟩
      (pollLoop compF failF ids.length rounds ⟨jsSet ids, [], []⟩)
    have hchain := pollLoop_chain compF failF ids.length rounds ⟨jsSet ids, [], []⟩
    exact (List.chain_map progressSum).mp hchain
  · intro p hp
    rw [List.mem_cons] at hp
    cases hp with
    | inl h =>
      rw [h]
      exact ⟨Nat.zero_le _, rfl⟩
    | inr h =>
      refine ⟨?_, pollLoop_total compF failF ids.length rounds _ p h⟩
      have hb := pollLoop_bound compF failF ids.length hdisj rounds _ p h
      have hjs := jsSet_length_le ids
      simp only [List.length_nil] at hb
      omega

theorem mem0_disjoint : ∀ (r : Mem0Round) (x : String),
    mem0Completed r x = true → mem0Failed r x = false := by
  intro r x h
  unfold mem0Completed at h
  unfold mem0Failed
  rw [eq_of_beq h]
  decide

theorem sm_disjoint : ∀ (r : SupermemoryRound) (x : String),
    smCompleted r x = true → smFailed r x = false := by
  intro r x h
  unfold smCompleted at h
  unfold smFailed
  cases hr : r x with
  | none => rfl
  | some poll =>
    rw [hr] at h
    dsimp only at h ⊢
    rw [Bool.and_eq_true] at h
    rw [eq_of_beq h.1, eq_of_beq h.2]
    decide

/-- C7: for one item, both the mem0 and the Supermemory `awaitIndexing`
polling loops report cumulative snapshots whose accounted-for count
(`completedIds.length + failedIds.length`) is non-decreasing across
consecutive callback invocations, never exceeds the reported total, and whose
reported total always equals the number of ingested document ids. -/
theorem awaitIndexing_cumulative_monotone :
    (∀ (result : IngestResult) (rounds : List Mem0Round),
      cumulativeMonotone (Mem0Provider.awaitIndexing result rounds)
        (result.documentIds.getD []).length) ∧
    (∀ (result : IngestResult) (documentIds : List String)
      (rounds : List SupermemoryRound) (trace : List IndexingProgress),
      result.documentIds = some documentIds →
      SupermemoryProvider.awaitIndexing result rounds = some trace →
      cumulativeMonotone trace documentIds.length) := by
  constructor
  · intro result rounds
    unfold Mem0Provider.awaitIndexing
    dsimp only
    by_cases h : ((result.documentIds.getD []).length == 0) = true
    · rw [if_pos h]
      have hz : (result.documentIds.getD []).length = 0 := eq_of_beq h
      constructor
      · exact List.chain'_singleton _
      · intro p hp
        rw [List.mem_singleton] at hp
        rw [hp, hz]
        exact ⟨Nat.le_refl 0, rfl⟩
    · rw [if_neg h]
      exact pollTrace_monotone mem0Completed mem0Failed mem0_disjoint _ rounds
  · intro result documentIds rounds trace hids htrace
    unfold SupermemoryProvider.awaitIndexing at htrace
    rw [hids] at htrace
    have htrace' : (if (documentIds.length == 0) = true then
        ([⟨[], [], 0⟩] : List IndexingProgress)
      else ⟨[], [], documentIds.length⟩ ::
        pollLoop smCompleted smFailed documentIds.length rounds
          ⟨jsSet documentIds, [], []⟩) = trace := by
      injection htrace
    by_cases h : (documentIds.length == 0) = true
    · rw [if_pos h] at htrace'
      have hz : documentIds.length = 0 := eq_of_beq h
      rw [← htrace']
      constructor
      · exact List.chain'_singleton _
      · intro p hp
        rw [List.mem_singleton] at hp
        rw [hp, hz]
        exact ⟨Nat.le_refl 0, rfl⟩
    · rw [if_neg h] at htrace'
      rw [← htrace']
      exact pollTrace_monotone smCompleted smFailed sm_disjoint documentIds rounds

/-- Witness for C7: a one-document Supermemory ingest whose single polling
round reports the document and its memory as done. -/
theorem awaitIndexing_cumulative_monotone_witness :
    cumulativeMonotone [⟨[], [], 1⟩, ⟨["d1"], [], 1⟩] 1 :=
  awaitIndexing_cumulative_monotone.2 ⟨some ["d1"], none⟩ ["d1"]
    [fun _ => some ("done", "done")] [⟨[], [], 1⟩, ⟨["d1"], [], 1⟩] rfl rfl
